import Mathlib

/-!
Shallow embedding of `src/cargo/sources/registry.rs` (the registry-backed
package source): the shard-path computation and index parsing of `query`,
the download/verify logic of `download_package`, and the marker-gated
extraction of `unpack_package`.  External collaborators (JSON decoding,
`PackageId::new`, `Dependency::parse`, `Summary::new`, the requirement
matcher, the SHA-256 hash function, the HTTP transport and the tar/gzip
codecs) are parameters of the embedding; everything else follows the source
line by line.  Filesystem state is a list of (path, contents) pairs and the
network is modelled by the response the transfer would produce together with
an explicit count of transfers performed.
-/

namespace Registry

/-- A filesystem path, as its list of components (`Path::join` is append). -/
abbrev FsPath := List String

/-- Filesystem state: the files present, newest first. -/
abbrev FS := List (FsPath × String)

/-- Contents of the file at `p`, if present. -/
def fsFind (fs : FS) (p : FsPath) : Option String :=
  (fs.find? (fun e => e.1 = p)).map (fun e => e.2)

/-- `PathExtensions::exists` on the modelled filesystem. -/
def fsExists (fs : FS) (p : FsPath) : Bool :=
  (fsFind fs p).isSome

/-- Write `c` at path `p` (`File::create(..).write(..)`). -/
def fsWrite (fs : FS) (p : FsPath) (c : String) : FS :=
  (p, c) :: fs

/-- Write a batch of files (the entries a tar extraction produces). -/
def fsWriteAll (fs : FS) (entries : List (FsPath × String)) : FS :=
  entries ++ fs

/-- The `(name, vers) => cksum` map `RegistrySource::hashes`.
`HashMap::insert` is modelled by consing; `find` takes the most recent
binding, which matches `HashMap` lookup after replacement. -/
abbrev Hashes := List ((String × String) × String)

/-- `self.hashes.insert((name, vers), cksum)`. -/
def insertHash (h : Hashes) (k : String × String) (v : String) : Hashes :=
  (k, v) :: h

/-- `self.hashes.find(&(name, vers))`. -/
def findHash (h : Hashes) (k : String × String) : Option String :=
  (h.find? (fun e => e.1 = k)).map (fun e => e.2)

/-- A package identity as this file uses it: `get_name()` and
`get_version()` (the source id plays no role in the embedded functions). -/
structure PackageId where
  name : String
  vers : String
deriving DecidableEq

/-- A hex digit `0..15` rendered as `serialize::hex::ToHex` renders it:
`'0'..'9'` then lowercase `'a'..'f'`. -/
def hexDigit (n : Nat) : Char :=
  if n < 10 then Char.ofNat (48 + n) else Char.ofNat (87 + n)

/-- One byte as two lowercase hex digits. -/
def toHexByte (b : Nat) : String :=
  String.mk [hexDigit (b / 16 % 16), hexDigit (b % 16)]

/-- `ToHex::to_hex` over a byte string: lowercase hex, byte by byte. -/
def toHex (bs : List Nat) : String :=
  String.join (bs.map toHexByte)

/-- The HTTP response a `handle.get(url).follow_redirects(true).exec()`
transfer yields: status code and body. -/
structure HttpResponse where
  code : Nat
  body : String
deriving DecidableEq

/-- The errors `download_package` can return, each carrying what its
format string names. -/
inductive DlErr where
  /-- `internal("Failed to get 200 reponse from ...")`. -/
  | transport (url : String) (code : Nat)
  /-- `internal("no hash listed for ...")`. -/
  | noHash (pkg : PackageId)
  /-- `human("Failed to verify the checksum of `...`")`. -/
  | checksumMismatch (pkg : PackageId)
deriving DecidableEq

/-- The deterministic cache path `cache_path.join(format!("{name}-{vers}.tar.gz"))`
(the format string is written as concatenation). -/
def dstPath (cachePath : FsPath) (pkg : PackageId) : FsPath :=
  cachePath ++ [pkg.name ++ "-" ++ pkg.vers ++ ".tar.gz"]

/-- `RegistrySource::download_package`.  The parameters beyond the source's
own are the collaborators: `hashFn` is the SHA-256 digest of a body, and
`resp` is what the (lazily created) HTTP handle returns for `url` if a
transfer is performed.  The result is the filesystem after the call, the
number of network transfers performed (0 or 1), and the source's
`CargoResult<Path>`. -/
def download_package (hashFn : String → List Nat) (hashes : Hashes)
    (cachePath : FsPath) (pkg : PackageId) (url : String) (resp : HttpResponse)
    (fs : FS) : FS × Nat × Except DlErr FsPath :=
  let dst := dstPath cachePath pkg
  if fsExists fs dst then (fs, 0, .ok dst)
  else
    -- the transfer happens here; the status check inspects its result
    if resp.code ≠ 200 ∧ resp.code ≠ 0 then
      (fs, 1, .error (.transport url resp.code))
    else
      match findHash hashes (pkg.name, pkg.vers) with
      | none => (fs, 1, .error (.noHash pkg))
      | some expected =>
        let actual := toHex (hashFn resp.body)
        if actual ≠ expected then (fs, 1, .error (.checksumMismatch pkg))
        else (fsWrite fs dst resp.body, 1, .ok dst)

/-- Rust's `str::slice(a, b)`: the characters at positions `a ≤ i < b`
(names here are ASCII, so byte and character indices agree).
`slice_to(b)` is `strSlice s 0 b`. -/
def strSlice (s : String) (a b : Nat) : String :=
  String.mk ((s.toList.drop a).take (b - a))

/-- The shard path computed at the top of `RegistrySource::query`: the
`match name.len()` over the checkout path. -/
def queryPath (checkoutPath : FsPath) (name : String) : FsPath :=
  match name.length with
  | 1 => checkoutPath ++ ["1", name]
  | 2 => checkoutPath ++ ["2", name]
  | 3 => checkoutPath ++ ["3", strSlice name 0 1, name]
  | _ => checkoutPath ++ [strSlice name 0 2, strSlice name 2 4, name]

/-- The wire record `RegistryDependency` of one index line's `deps` entry. -/
structure RegistryDependency where
  name : String
  req : String
  features : List String
  optional : Bool
  defaultFeatures : Bool
  target : Option String
deriving DecidableEq

/-- The wire record `RegistryPackage` one index line decodes to. -/
structure RegistryPackage where
  name : String
  vers : String
  deps : List RegistryDependency
  features : List (String × List String)
  cksum : String
deriving DecidableEq

/-- A `core::Dependency` as this file consumes and produces it: what
`Dependency::parse` returns, plus the builder fields
`optional`, `default_features`, `features` that
`parse_registry_dependency` sets. -/
structure Dependency where
  name : String
  req : String
  optional : Bool
  defaultFeatures : Bool
  features : List String
deriving DecidableEq

/-- A `core::Summary`: package identity, dependencies and feature map. -/
structure Summary where
  pkgid : PackageId
  deps : List Dependency
  features : List (String × List String)
deriving DecidableEq

/-- The external collaborators of the query path: `json::decode`,
`PackageId::new` (over this registry's source id), `Dependency::parse`,
`Summary::new`, and the requirement matcher `dep.matches(summary)` that
`Vec<Summary>`'s `Registry::query` filters with. -/
structure Externals where
  jsonDecodePkg : String → Except String RegistryPackage
  pkgIdNew : String → String → Except String PackageId
  depParse : String → String → Except String Dependency
  summaryNew : PackageId → List Dependency → List (String × List String) →
    Except String Summary
  depMatches : Dependency → Summary → Bool

/-- `RegistrySource::parse_registry_dependency`: parse name and requirement,
then apply the builder methods; the `target` field is dropped. -/
def parse_registry_dependency (ext : Externals) (dep : RegistryDependency) :
    Except String Dependency :=
  match ext.depParse dep.name dep.req with
  | .error e => .error e
  | .ok d =>
    .ok { d with
      optional := dep.optional
      defaultFeatures := dep.defaultFeatures
      features := dep.features }

/-- `deps.into_iter().map(parse_registry_dependency).collect()`: the first
failing dependency aborts the whole list. -/
def collectDeps (ext : Externals) : List RegistryDependency →
    Except String (List Dependency)
  | [] => .ok []
  | d :: ds =>
    match parse_registry_dependency ext d with
    | .error e => .error e
    | .ok d' =>
      match collectDeps ext ds with
      | .error e => .error e
      | .ok ds' => .ok (d' :: ds')

/-- `RegistrySource::parse_registry_package`: decode the line, build the
package id, parse the dependencies, and only then insert the checksum into
`self.hashes` before calling `Summary::new`.  Returns the hash map after
the call alongside the result. -/
def parse_registry_package (ext : Externals) (st : Hashes) (line : String) :
    Hashes × Except String Summary :=
  match ext.jsonDecodePkg line with
  | .error e => (st, .error e)
  | .ok rp =>
    match ext.pkgIdNew rp.name rp.vers with
    | .error e => (st, .error e)
    | .ok pkgid =>
      match collectDeps ext rp.deps with
      | .error e => (st, .error e)
      | .ok deps =>
        (insertHash st (rp.name, rp.vers) rp.cksum,
         ext.summaryNew pkgid deps rp.features)

/-- The error a failed `query` returns: `chain_error` wraps the line's
error in a message naming the dependency being resolved. -/
structure ChainedErr where
  msg : String
  cause : String
deriving DecidableEq

/-- Split a character list at every occurrence of `c` (the separators are
not kept).  Structural-recursive embedding of splitting a string on a
character. -/
def splitOnChar (c : Char) : List Char → List (List Char)
  | [] => [[]]
  | a :: as =>
    if a = c then [] :: splitOnChar c as
    else
      match splitOnChar c as with
      | [] => [[a]]
      | g :: gs => (a :: g) :: gs

/-- `str::lines()`: the newline-separated lines of a string.  (A trailing
newline here yields a final empty line that Rust's iterator omits; the
difference is invisible to `query`, which filters blank lines out.) -/
def linesOf (s : String) : List String :=
  (splitOnChar (Char.ofNat 10) s.toList).map String.mk

/-- ASCII whitespace, as `str::trim` treats it for index lines. -/
def isWhitespaceChar (c : Char) : Bool :=
  c = ' ' ∨ c = Char.ofNat 9 ∨ c = Char.ofNat 10 ∨ c = Char.ofNat 13

/-- `str::trim()`: strip leading and trailing whitespace. -/
def trimStr (s : String) : String :=
  String.mk
    (((s.toList.dropWhile isWhitespaceChar).reverse.dropWhile
      isWhitespaceChar).reverse)

/-- `contents.lines().filter(|l| l.trim().len() > 0)`. -/
def filteredLines (contents : String) : List String :=
  (linesOf contents).filter (fun l => (trimStr l).length > 0)

/-- The `map(parse_registry_package).collect::<CargoResult<Vec<_>>>()` over
an iterator of lines: lines are parsed left to right, the first error stops
the iteration (lines after it are never parsed), and the hash-map
insertions of the lines already parsed remain. -/
def parseAll (ext : Externals) (st : Hashes) :
    List String → Hashes × Except String (List Summary)
  | [] => (st, .ok [])
  | l :: ls =>
    match parse_registry_package ext st l with
    | (st', .error e) => (st', .error e)
    | (st', .ok s) =>
      match parseAll ext st' ls with
      | (st'', .error e) => (st'', .error e)
      | (st'', .ok ss) => (st'', .ok (s :: ss))

/-- `Vec<Summary>`'s `Registry::query`: keep the summaries the dependency's
requirement matches. -/
def summariesQuery (ext : Externals) (ss : List Summary) (dep : Dependency) :
    List Summary :=
  ss.filter (fun s => ext.depMatches dep s)

/-- `RegistrySource::query`: shard path, file read (a missing file yields
`Ok(Vec::new())`), line parsing with `chain_error` naming the dependency,
then requirement filtering.  Returns the hash map after the call alongside
the result. -/
def query (ext : Externals) (st : Hashes) (fs : FS) (checkoutPath : FsPath)
    (dep : Dependency) : Hashes × Except ChainedErr (List Summary) :=
  let path := queryPath checkoutPath dep.name
  match fsFind fs path with
  | none => (st, .ok [])
  | some contents =>
    match parseAll ext st (filteredLines contents) with
    | (st', .error e) =>
      (st', .error ⟨"Failed to parse registry's information for: " ++ dep.name, e⟩)
    | (st', .ok summaries) => (st', .ok (summariesQuery ext summaries dep))

/-- Outcomes of the collaborators `unpack_package` calls, in call order:
`File::open(tarball)`, `GzDecoder::new`, `tar.unpack`; `written` is the
set of files the extraction attempt writes (all of them on success, the
partial prefix when `tarUnpack` fails midway). -/
structure TarOracle where
  openTarball : Except String Unit
  gzInit : Except String Unit
  tarUnpack : Except String Unit
  written : List (FsPath × String)

/-- The destination directory `src_path.join(format!("{name}-{vers}"))`. -/
def unpackDst (srcPath : FsPath) (pkg : PackageId) : FsPath :=
  srcPath ++ [pkg.name ++ "-" ++ pkg.vers]

/-- The completion marker `dst.join(".cargo-ok")`. -/
def markerPath (srcPath : FsPath) (pkg : PackageId) : FsPath :=
  unpackDst srcPath pkg ++ [".cargo-ok"]

/-- `RegistrySource::unpack_package`: return early if the marker exists,
otherwise open, decompress and extract, and create the marker only after
extraction succeeded.  The `Bool` records whether extraction work ran. -/
def unpack_package (o : TarOracle) (srcPath : FsPath) (pkg : PackageId)
    (tarball : FsPath) (fs : FS) : FS × Bool × Except String FsPath :=
  let dst := unpackDst srcPath pkg
  let marker := markerPath srcPath pkg
  let _ := tarball
  if fsExists fs marker then (fs, false, .ok dst)
  else
    match o.openTarball with
    | .error e => (fs, false, .error e)
    | .ok _ =>
      match o.gzInit with
      | .error e => (fs, false, .error e)
      | .ok _ =>
        let fs1 := fsWriteAll fs o.written
        match o.tarUnpack with
        | .error e => (fs1, true, .error e)
        | .ok _ => (fsWrite fs1 marker "", true, .ok dst)

/-! Helper lemmas shared by the theorems below. -/

/-- A file just written is present. -/
theorem fsExists_fsWrite_self (fs : FS) (p : FsPath) (c : String) :
    fsExists (fsWrite fs p c) p = true := by
  simp [fsExists, fsFind, fsWrite, List.find?]

/-- A fixed digest function used to instantiate the hash collaborator in
concrete checks; its hex encoding is `"ab"`. -/
def abDigest : String → List Nat := fun _ => [171]

/-- The early return of `download_package`: an existing cache file
short-circuits everything after it. -/
theorem download_package_cache_hit (hashFn : String → List Nat)
    (hashes : Hashes) (cachePath : FsPath) (pkg : PackageId) (url : String)
    (resp : HttpResponse) (fs : FS)
    (h : fsExists fs (dstPath cachePath pkg) = true) :
    download_package hashFn hashes cachePath pkg url resp fs =
      (fs, 0, .ok (dstPath cachePath pkg)) := by
  simp [download_package, h]

/-- Claim C10: if the archive file already exists at the deterministic cache
path, `download_package` returns that path with no transfer, no filesystem
change, and no dependence on the checksum cache (the `hashes` argument is
arbitrary, in particular it may be empty). -/
theorem c10_cache_hit_skips_everything (hashFn : String → List Nat)
    (hashes : Hashes) (cachePath : FsPath) (pkg : PackageId) (url : String)
    (resp : HttpResponse) (fs : FS)
    (h : fsExists fs (dstPath cachePath pkg) = true) :
    download_package hashFn hashes cachePath pkg url resp fs =
      (fs, 0, .ok (dstPath cachePath pkg)) :=
  download_package_cache_hit hashFn hashes cachePath pkg url resp fs h

/-- Witness for C10: a concrete call with the cache file present and an
empty checksum cache succeeds without a transfer. -/
theorem c10_witness :
    download_package abDigest [] ["c"] ⟨"a", "1.0.0"⟩ "u" ⟨200, "x"⟩
        [(["c", "a-1.0.0.tar.gz"], "body")] =
      ([(["c", "a-1.0.0.tar.gz"], "body")], 0,
        .ok (dstPath ["c"] ⟨"a", "1.0.0"⟩)) :=
  c10_cache_hit_skips_everything abDigest [] ["c"] ⟨"a", "1.0.0"⟩ "u"
    ⟨200, "x"⟩ [(["c", "a-1.0.0.tar.gz"], "body")] (by decide)

/-- Claim C1, counterexample: with the cache file absent, a 200 response and
an empty checksum cache, `download_package` does fail with the cache-miss
error, but only after performing the network transfer (transfer count 1,
not 0) — the failure is not "before any network transfer" as claimed. -/
theorem c1_counterexample :
    download_package abDigest [] ["c"] ⟨"a", "1.0.0"⟩ "u" ⟨200, "x"⟩ [] =
      ([], 1, .error (.noHash ⟨"a", "1.0.0"⟩)) := by
  rfl

/-- Claim C1 (amended): when the cache file is absent and the response
status is acceptable, the absence of a checksum-cache entry for
`(name, version)` causes the `no hash listed` failure after the network
transfer (exactly one transfer has occurred) but before any cache write —
the filesystem is returned unchanged. -/
theorem c1_cache_miss_fails_before_write (hashFn : String → List Nat)
    (hashes : Hashes) (cachePath : FsPath) (pkg : PackageId) (url : String)
    (resp : HttpResponse) (fs : FS)
    (habs : fsExists fs (dstPath cachePath pkg) = false)
    (hcode : resp.code = 200 ∨ resp.code = 0)
    (hmiss : findHash hashes (pkg.name, pkg.vers) = none) :
    download_package hashFn hashes cachePath pkg url resp fs =
      (fs, 1, .error (.noHash pkg)) := by
  have hc : ¬(resp.code ≠ 200 ∧ resp.code ≠ 0) := by
    rcases hcode with h | h <;> simp [h]
  simp [download_package, habs, hc, hmiss]

/-- Witness for C1 (amended) at a concrete input. -/
theorem c1_witness :
    download_package abDigest [] ["d"] ⟨"b", "0.2.0"⟩ "u" ⟨0, "y"⟩ [] =
      ([], 1, .error (.noHash ⟨"b", "0.2.0"⟩)) :=
  c1_cache_miss_fails_before_write abDigest [] ["d"] ⟨"b", "0.2.0"⟩ "u"
    ⟨0, "y"⟩ [] (by decide) (Or.inr rfl) (by decide)

/-- Claim C2, counterexample: the stored expected checksum `"AB"` differs
from the computed lowercase hex `"ab"` only in letter case, yet
`download_package` rejects it with a checksum mismatch — the comparison is
not case-insensitive. -/
theorem c2_counterexample :
    (toHex (abDigest "x")).toList.map Char.toLower =
      "AB".toList.map Char.toLower ∧
    toHex (abDigest "x") ≠ "AB" ∧
    download_package abDigest [(("a", "1.0.0"), "AB")] ["c"] ⟨"a", "1.0.0"⟩
        "u" ⟨200, "x"⟩ [] =
      ([], 1, .error (.checksumMismatch ⟨"a", "1.0.0"⟩)) :=
  ⟨by decide, by decide, by rfl⟩

/-- Claim C2 (amended): the verification compares the lowercase hex
encoding of the computed hash to the stored expected value by exact,
case-sensitive string equality — the body is written and the path returned
exactly when the two strings are equal, and any difference (including one
of letter case alone) yields the checksum-mismatch error. -/
theorem c2_exact_comparison (hashFn : String → List Nat) (hashes : Hashes)
    (cachePath : FsPath) (pkg : PackageId) (url : String)
    (resp : HttpResponse) (fs : FS) (expected : String)
    (habs : fsExists fs (dstPath cachePath pkg) = false)
    (hcode : resp.code = 200 ∨ resp.code = 0)
    (hfound : findHash hashes (pkg.name, pkg.vers) = some expected) :
    download_package hashFn hashes cachePath pkg url resp fs =
      if toHex (hashFn resp.body) = expected then
        (fsWrite fs (dstPath cachePath pkg) resp.body, 1,
          .ok (dstPath cachePath pkg))
      else (fs, 1, .error (.checksumMismatch pkg)) := by
  have hc : ¬(resp.code ≠ 200 ∧ resp.code ≠ 0) := by
    rcases hcode with h | h <;> simp [h]
  by_cases heq : toHex (hashFn resp.body) = expected <;>
    simp [download_package, habs, hc, hfound, heq]

/-- Witness for C2 (amended): an exactly-equal lowercase checksum is
accepted and written. -/
theorem c2_witness :
    download_package abDigest [(("a", "1.0.0"), "ab")] ["c"] ⟨"a", "1.0.0"⟩
        "u" ⟨200, "x"⟩ [] =
      ((if toHex (abDigest "x") = "ab" then
          (fsWrite [] (dstPath ["c"] ⟨"a", "1.0.0"⟩) "x", 1,
            .ok (dstPath ["c"] ⟨"a", "1.0.0"⟩))
        else ([], 1, .error (.checksumMismatch ⟨"a", "1.0.0"⟩))) :
        FS × Nat × Except DlErr FsPath) :=
  c2_exact_comparison abDigest [(("a", "1.0.0"), "ab")] ["c"] ⟨"a", "1.0.0"⟩
    "u" ⟨200, "x"⟩ [] "ab" (by decide) (Or.inl rfl) (by decide)

/-- Claim C3: a response body whose hash encodes to something other than
the expected checksum yields the mismatch error naming the package, the
filesystem is returned unchanged, and in particular no file exists at the
deterministic cache path afterward. -/
theorem c3_mismatch_leaves_no_file (hashFn : String → List Nat)
    (hashes : Hashes) (cachePath : FsPath) (pkg : PackageId) (url : String)
    (resp : HttpResponse) (fs : FS) (expected : String)
    (habs : fsExists fs (dstPath cachePath pkg) = false)
    (hcode : resp.code = 200 ∨ resp.code = 0)
    (hfound : findHash hashes (pkg.name, pkg.vers) = some expected)
    (hne : toHex (hashFn resp.body) ≠ expected) :
    download_package hashFn hashes cachePath pkg url resp fs =
      (fs, 1, .error (.checksumMismatch pkg)) ∧
    fsExists (download_package hashFn hashes cachePath pkg url resp fs).1
      (dstPath cachePath pkg) = false := by
  have hc : ¬(resp.code ≠ 200 ∧ resp.code ≠ 0) := by
    rcases hcode with h | h <;> simp [h]
  constructor
  · simp [download_package, habs, hc, hfound, hne]
  · simp [download_package, habs, hc, hfound, hne]

/-- Witness for C3 at a concrete input. -/
theorem c3_witness :
    download_package abDigest [(("a", "1.0.0"), "ffff")] ["c"]
        ⟨"a", "1.0.0"⟩ "u" ⟨200, "x"⟩ [] =
      ([], 1, .error (.checksumMismatch ⟨"a", "1.0.0"⟩)) ∧
    fsExists (download_package abDigest [(("a", "1.0.0"), "ffff")] ["c"]
        ⟨"a", "1.0.0"⟩ "u" ⟨200, "x"⟩ []).1
      (dstPath ["c"] ⟨"a", "1.0.0"⟩) = false :=
  c3_mismatch_leaves_no_file abDigest [(("a", "1.0.0"), "ffff")] ["c"]
    ⟨"a", "1.0.0"⟩ "u" ⟨200, "x"⟩ [] "ffff" (by decide) (Or.inl rfl)
    (by decide) (by decide)

/-- Claim C6: if the cache file already exists, `download_package` performs
no transfer and returns that path; and after any successful call, a second
call (with arbitrary hash function, checksum cache, url and response)
performs no transfer and returns the same path — so when the file was
initially absent, the first call performed exactly one transfer and the two
sequential calls together perform exactly one. -/
theorem c6_download_idempotent (hashFn hashFn2 : String → List Nat)
    (hashes hashes2 : Hashes) (cachePath : FsPath) (pkg : PackageId)
    (url url2 : String) (resp resp2 : HttpResponse) (fs fs1 : FS) (n : Nat)
    (p : FsPath)
    (h : download_package hashFn hashes cachePath pkg url resp fs =
      (fs1, n, .ok p)) :
    download_package hashFn2 hashes2 cachePath pkg url2 resp2 fs1 =
      (fs1, 0, .ok (dstPath cachePath pkg)) ∧
    p = dstPath cachePath pkg ∧
    (fsExists fs (dstPath cachePath pkg) = true → fs1 = fs ∧ n = 0) ∧
    (fsExists fs (dstPath cachePath pkg) = false → n = 1) := by
  by_cases hex : fsExists fs (dstPath cachePath pkg) = true
  · rw [download_package_cache_hit hashFn hashes cachePath pkg url resp
      fs hex] at h
    obtain ⟨rfl, rfl, rfl⟩ :
        fs1 = fs ∧ n = 0 ∧ p = dstPath cachePath pkg := by
      injection h with h1 h2; injection h2 with h2 h3
      exact ⟨h1.symm, h2.symm, by injection h3.symm⟩
    refine ⟨download_package_cache_hit _ _ _ _ _ _ _ hex, rfl,
      fun _ => ⟨rfl, rfl⟩, fun hf => (by simp [hex] at hf)⟩
  · have hex' : fsExists fs (dstPath cachePath pkg) = false := by
      simpa using hex
    have hok : fs1 = fsWrite fs (dstPath cachePath pkg) resp.body ∧
        n = 1 ∧ p = dstPath cachePath pkg := by
      simp only [download_package, hex', Bool.false_eq_true, if_false] at h
      split at h
      · exact absurd (congrArg (fun t => t.2.2) h) (by simp)
      · split at h
        · exact absurd (congrArg (fun t => t.2.2) h) (by simp)
        · split at h
          · exact absurd (congrArg (fun t => t.2.2) h) (by simp)
          · refine ⟨?_, ?_, ?_⟩
            · exact (congrArg (fun t => t.1) h).symm
            · exact (congrArg (fun t => t.2.1) h).symm
            · have := congrArg (fun t => t.2.2) h
              simpa using this.symm
    obtain ⟨rfl, rfl, rfl⟩ := hok
    refine ⟨?_, rfl, fun hf => (by rw [hf] at hex'; cases hex'), fun _ => rfl⟩
    exact download_package_cache_hit _ _ _ _ _ _ _
      (fsExists_fsWrite_self fs (dstPath cachePath pkg) resp.body)

/-- Witness for C6: a concrete successful first call followed by a second
call that performs no transfer. -/
theorem c6_witness :
    download_package abDigest [] ["c"] ⟨"a", "1.0.0"⟩ "u" ⟨200, "x"⟩
        [(dstPath ["c"] ⟨"a", "1.0.0"⟩, "x")] =
      ([(dstPath ["c"] ⟨"a", "1.0.0"⟩, "x")], 0,
        .ok (dstPath ["c"] ⟨"a", "1.0.0"⟩)) :=
  (c6_download_idempotent abDigest abDigest
    [(("a", "1.0.0"), "ab")] [] ["c"] ⟨"a", "1.0.0"⟩ "u" "u" ⟨200, "x"⟩
    ⟨200, "x"⟩ [] [(dstPath ["c"] ⟨"a", "1.0.0"⟩, "x")] 1
    (dstPath ["c"] ⟨"a", "1.0.0"⟩) (by rfl)).1

/-- Writing a batch none of whose paths is `p` does not create a file at
`p`. -/
theorem fsExists_fsWriteAll (fs : FS) (w : List (FsPath × String))
    (p : FsPath) (hw : p ∉ w.map Prod.fst) (hf : fsExists fs p = false) :
    fsExists (fsWriteAll fs w) p = false := by
  have hnone : w.find? (fun e => e.1 = p) = none := by
    refine List.find?_eq_none.mpr (fun x hx => ?_)
    simp only [decide_eq_true_eq]
    intro hxp
    exact hw (List.mem_map.mpr ⟨x, hx, hxp⟩)
  simp only [fsExists, fsFind, fsWriteAll, List.find?_append, hnone,
    Option.none_or]
  simpa [fsExists, fsFind] using hf

/-- Claim C7: `unpack_package` is marker-gated.  If the completion marker
exists, the destination is returned unchanged with no extraction work.
Otherwise, when the archive's own entries do not collide with the marker
path, any failure (open, gzip init, or extraction) leaves no marker behind;
and a success implies all three steps succeeded, extraction ran, and the
marker is present afterward. -/
theorem c7_unpack_marker_gated (o : TarOracle) (srcPath : FsPath)
    (pkg : PackageId) (tarball : FsPath) (fs : FS) :
    (fsExists fs (markerPath srcPath pkg) = true →
      unpack_package o srcPath pkg tarball fs =
        (fs, false, .ok (unpackDst srcPath pkg))) ∧
    (fsExists fs (markerPath srcPath pkg) = false →
      markerPath srcPath pkg ∉ o.written.map Prod.fst →
      ∀ fs1 b e, unpack_package o srcPath pkg tarball fs = (fs1, b, .error e) →
        fsExists fs1 (markerPath srcPath pkg) = false) ∧
    (fsExists fs (markerPath srcPath pkg) = false →
      ∀ fs1 b p, unpack_package o srcPath pkg tarball fs = (fs1, b, .ok p) →
        o.openTarball = .ok () ∧ o.gzInit = .ok () ∧ o.tarUnpack = .ok () ∧
        b = true ∧ fsExists fs1 (markerPath srcPath pkg) = true) := by
  obtain ⟨ot, og, otar, ow⟩ := o
  refine ⟨fun hm => ?_, fun hm hw fs1 b e h => ?_, fun hm fs1 b p h => ?_⟩
  · simp [unpack_package, hm]
  · cases ot with
    | error e' =>
      simp only [unpack_package, hm, Bool.false_eq_true, if_false] at h
      have h1 := congrArg (fun t : FS × Bool × Except String FsPath => t.1) h
      simp only at h1
      rw [← h1]
      exact hm
    | ok u =>
      cases og with
      | error e' =>
        simp only [unpack_package, hm, Bool.false_eq_true, if_false] at h
        have := congrArg (fun t => t.1) h
        simp only at this
        rw [← this]
        exact hm
      | ok u2 =>
        cases otar with
        | error e' =>
          simp only [unpack_package, hm, Bool.false_eq_true, if_false] at h
          have := congrArg (fun t => t.1) h
          simp only at this
          rw [← this]
          exact fsExists_fsWriteAll fs ow (markerPath srcPath pkg) hw hm
        | ok u3 =>
          simp only [unpack_package, hm, Bool.false_eq_true, if_false] at h
          exact absurd (congrArg (fun t => t.2.2) h) (by simp)
  · cases ot with
    | error e' =>
      simp only [unpack_package, hm, Bool.false_eq_true, if_false] at h
      exact absurd (congrArg (fun t => t.2.2) h) (by simp)
    | ok u =>
      cases u
      cases og with
      | error e' =>
        simp only [unpack_package, hm, Bool.false_eq_true, if_false] at h
        exact absurd (congrArg (fun t => t.2.2) h) (by simp)
      | ok u2 =>
        cases u2
        cases otar with
        | error e' =>
          simp only [unpack_package, hm, Bool.false_eq_true, if_false] at h
          exact absurd (congrArg (fun t => t.2.2) h) (by simp)
        | ok u3 =>
          cases u3
          simp only [unpack_package, hm, Bool.false_eq_true, if_false] at h
          have h1 := congrArg (fun t => t.1) h
          have h2 := congrArg (fun t => t.2.1) h
          simp only at h1 h2
          refine ⟨rfl, rfl, rfl, h2.symm, ?_⟩
          rw [← h1]
          exact fsExists_fsWrite_self _ _ _

/-- Witness for C7: with the marker present, a concrete call returns the
destination unchanged; the oracle here would fail if extraction were
attempted. -/
theorem c7_witness :
    unpack_package ⟨.error "boom", .error "boom", .error "boom", []⟩ ["s"]
        ⟨"a", "1.0.0"⟩ ["t"] [(markerPath ["s"] ⟨"a", "1.0.0"⟩, "")] =
      ([(markerPath ["s"] ⟨"a", "1.0.0"⟩, "")], false,
        .ok (unpackDst ["s"] ⟨"a", "1.0.0"⟩)) :=
  (c7_unpack_marker_gated ⟨.error "boom", .error "boom", .error "boom", []⟩
    ["s"] ⟨"a", "1.0.0"⟩ ["t"] [(markerPath ["s"] ⟨"a", "1.0.0"⟩, "")]).1
    (by decide)

/-- A concrete line decoder used to evaluate the embedding at specific
inputs: a well-formed line is `name<space>vers<space>cksum`. -/
def testDecode (line : String) : Except String RegistryPackage :=
  match (splitOnChar ' ' line.toList).map String.mk with
  | [n, v, c] => .ok ⟨n, v, [], [], c⟩
  | _ => .error ("invalid line: " ++ line)

/-- Concrete collaborators used to evaluate the embedding at specific
inputs. -/
def testExt : Externals where
  jsonDecodePkg := testDecode
  pkgIdNew := fun n v => .ok ⟨n, v⟩
  depParse := fun n r => .ok ⟨n, r, false, true, []⟩
  summaryNew := fun p d f => .ok ⟨p, d, f⟩
  depMatches := fun _ _ => true

/-- Claim C4: the shard path matches the documented table in every
name-length class — `1/<name>`, `2/<name>`, `3/<first char>/<name>`, and
`<first 2 chars>/<chars 3-4>/<name>`, each rooted at the checkout path. -/
theorem c4_shard_path (checkoutPath : FsPath) (name : String) :
    (name.length = 1 →
      queryPath checkoutPath name = checkoutPath ++ ["1", name]) ∧
    (name.length = 2 →
      queryPath checkoutPath name = checkoutPath ++ ["2", name]) ∧
    (name.length = 3 →
      queryPath checkoutPath name =
        checkoutPath ++ ["3", String.mk (name.toList.take 1), name]) ∧
    (4 ≤ name.length →
      queryPath checkoutPath name =
        checkoutPath ++ [String.mk (name.toList.take 2),
          String.mk ((name.toList.drop 2).take 2), name]) := by
  refine ⟨fun h => ?_, fun h => ?_, fun h => ?_, fun h => ?_⟩
  · unfold queryPath; rw [h]
  · unfold queryPath; rw [h]
  · unfold queryPath; rw [h]; rfl
  · obtain ⟨m, hm⟩ : ∃ m, name.length = m + 4 := ⟨name.length - 4, by omega⟩
    unfold queryPath; rw [hm]; rfl

/-- Witness for C4 at concrete names of each length class. -/
theorem c4_witness :
    queryPath ["r"] "a" = ["r"] ++ ["1", "a"] ∧
    queryPath ["r"] "ab" = ["r"] ++ ["2", "ab"] ∧
    queryPath ["r"] "abc" =
      ["r"] ++ ["3", String.mk ("abc".toList.take 1), "abc"] ∧
    queryPath ["r"] "serde" =
      ["r"] ++ [String.mk ("serde".toList.take 2),
        String.mk (("serde".toList.drop 2).take 2), "serde"] :=
  ⟨(c4_shard_path ["r"] "a").1 (by decide),
   (c4_shard_path ["r"] "ab").2.1 (by decide),
   (c4_shard_path ["r"] "abc").2.2.1 (by decide),
   (c4_shard_path ["r"] "serde").2.2.2 (by decide)⟩

/-- Claim C8: a dependency whose package name has no shard file in the
checkout yields an empty summary list, not an error. -/
theorem c8_missing_shard_empty (ext : Externals) (st : Hashes) (fs : FS)
    (checkoutPath : FsPath) (dep : Dependency)
    (h : fsFind fs (queryPath checkoutPath dep.name) = none) :
    query ext st fs checkoutPath dep = (st, .ok []) := by
  simp [query, h]

/-- Witness for C8: a query against an empty filesystem returns an empty
list. -/
theorem c8_witness :
    query testExt [] [] ["reg"] ⟨"serde", "^1", false, true, []⟩ =
      ([], .ok []) :=
  c8_missing_shard_empty testExt [] [] ["reg"]
    ⟨"serde", "^1", false, true, []⟩ rfl

/-- Looking up the key just inserted finds its value. -/
theorem findHash_insertHash_self (st : Hashes) (k : String × String)
    (v : String) : findHash (insertHash st k v) k = some v := by
  simp [findHash, insertHash, List.find?]

/-- Inserting a different key does not change a lookup. -/
theorem findHash_insertHash_ne (st : Hashes) (k k' : String × String)
    (v : String) (h : k' ≠ k) :
    findHash (insertHash st k' v) k = findHash st k := by
  simp [findHash, insertHash, List.find?, h]

/-- If some line of the list fails to decode, the collected parse fails
(whatever the starting state). -/
theorem parseAll_error_of_mem (ext : Externals) :
    ∀ (ls : List String) (st : Hashes),
    (∃ l ∈ ls, ∃ e, ext.jsonDecodePkg l = .error e) →
    ∃ st' e', parseAll ext st ls = (st', .error e') := by
  intro ls
  induction ls with
  | nil =>
    rintro st ⟨l, hl, -⟩
    exact absurd hl (List.not_mem_nil l)
  | cons a as ih =>
    rintro st ⟨l, hl, e, he⟩
    rcases List.mem_cons.mp hl with rfl | hmem
    · exact ⟨st, e, by simp [parseAll, parse_registry_package, he]⟩
    · rcases hp : parse_registry_package ext st a with ⟨st1, r⟩
      cases r with
      | error e2 => exact ⟨st1, e2, by simp [parseAll, hp]⟩
      | ok s =>
        obtain ⟨st2, e2, h2⟩ := ih st1 ⟨l, hmem, e, he⟩
        exact ⟨st2, e2, by simp [parseAll, hp, h2]⟩

/-- A line that decodes and parses successfully inserts exactly its
checksum entry into the hash map. -/
theorem parse_ok_inserts (ext : Externals) (st : Hashes) (l : String)
    (rp : RegistryPackage) (st' : Hashes) (s : Summary)
    (hd : ext.jsonDecodePkg l = .ok rp)
    (hp : parse_registry_package ext st l = (st', .ok s)) :
    st' = insertHash st (rp.name, rp.vers) rp.cksum := by
  simp only [parse_registry_package, hd] at hp
  cases hpk : ext.pkgIdNew rp.name rp.vers with
  | error e => rw [hpk] at hp; simp at hp
  | ok pkgid =>
    rw [hpk] at hp
    cases hcd : collectDeps ext rp.deps with
    | error e => rw [hcd] at hp; simp at hp
    | ok deps =>
      rw [hcd] at hp
      simp only [Prod.mk.injEq] at hp
      exact hp.1.symm

/-- Parsing a line either leaves the hash map unchanged, or the line
decoded successfully and its checksum entry was inserted. -/
theorem parse_state_cases (ext : Externals) (st : Hashes) (l : String) :
    (parse_registry_package ext st l).1 = st ∨
    ∃ rp, ext.jsonDecodePkg l = .ok rp ∧
      (parse_registry_package ext st l).1 =
        insertHash st (rp.name, rp.vers) rp.cksum := by
  cases hd : ext.jsonDecodePkg l with
  | error e => left; simp [parse_registry_package, hd]
  | ok rp =>
    cases hpk : ext.pkgIdNew rp.name rp.vers with
    | error e => left; simp [parse_registry_package, hd, hpk]
    | ok pkgid =>
      cases hcd : collectDeps ext rp.deps with
      | error e => left; simp [parse_registry_package, hd, hpk, hcd]
      | ok deps =>
        right
        refine ⟨rp, rfl, ?_⟩
        simp [parse_registry_package, hd, hpk, hcd]

/-- The parse of a list that ends in a failing line, preceded by lines
none of which inserts the key `k`: the collected parse fails and the
lookup of `k` is unchanged. -/
theorem parseAll_error_preserves (ext : Externals) :
    ∀ (as post : List String) (lbad : String) (st : Hashes)
      (k : String × String),
    (∃ e, ext.jsonDecodePkg lbad = .error e) →
    (∀ l ∈ as, ∀ rp, ext.jsonDecodePkg l = .ok rp →
      (rp.name, rp.vers) ≠ k) →
    ∃ st' e', parseAll ext st (as ++ lbad :: post) = (st', .error e') ∧
      findHash st' k = findHash st k := by
  intro as
  induction as with
  | nil =>
    rintro post lbad st k ⟨e, he⟩ -
    exact ⟨st, e, by simp [parseAll, parse_registry_package, he], rfl⟩
  | cons a as' ih =>
    rintro post lbad st k hbad hk
    rcases hp : parse_registry_package ext st a with ⟨stA, r⟩
    have hpres : findHash stA k = findHash st k := by
      rcases parse_state_cases ext st a with h0 | ⟨rp, hd, h1⟩
      · rw [hp] at h0
        have h0' : stA = st := by simpa using h0
        rw [h0']
      · rw [hp] at h1
        have h1' : stA = insertHash st (rp.name, rp.vers) rp.cksum := by
          simpa using h1
        rw [h1']
        exact findHash_insertHash_ne st k _ _
          (hk a (List.mem_cons_self a as') rp hd)
    cases r with
    | error e2 => exact ⟨stA, e2, by simp [parseAll, hp], hpres⟩
    | ok s =>
      obtain ⟨st', e', heq, hpr⟩ :=
        ih post lbad stA k hbad (fun l hl => hk l (List.mem_cons_of_mem a hl))
      exact ⟨st', e', by simp [parseAll, hp, heq], hpr.trans hpres⟩

/-- Composing a collected parse across an append when the first part
succeeds: the run continues on the second part from the reached state, and
a failure there is the failure of the whole. -/
theorem parseAll_append_ok (ext : Externals) :
    ∀ (as bs : List String) (st st1 : Hashes) (ss1 : List Summary),
    parseAll ext st as = (st1, .ok ss1) →
    parseAll ext st (as ++ bs) =
      ((parseAll ext st1 bs).1,
        match (parseAll ext st1 bs).2 with
        | .error e => .error e
        | .ok ss2 => .ok (ss1 ++ ss2)) := by
  intro as
  induction as with
  | nil =>
    intro bs st st1 ss1 h
    simp only [parseAll, Prod.mk.injEq, Except.ok.injEq] at h
    obtain ⟨rfl, rfl⟩ := h
    rcases hb : parseAll ext st bs with ⟨st2, r⟩
    cases r <;> simp [hb]
  | cons a as' ih =>
    intro bs st st1 ss1 h
    rcases hp : parse_registry_package ext st a with ⟨stA, r⟩
    cases r with
    | error e => simp [parseAll, hp] at h
    | ok s =>
      rcases hr : parseAll ext stA as' with ⟨stB, r2⟩
      cases r2 with
      | error e2 => simp [parseAll, hp, hr] at h
      | ok ss' =>
        simp only [parseAll, hp, hr, Prod.mk.injEq, Except.ok.injEq] at h
        obtain ⟨rfl, rfl⟩ := h
        have hih := ih bs stA stB ss' hr
        simp only [List.cons_append, parseAll, hp, hih]
        rcases hb : parseAll ext stB bs with ⟨st2, r3⟩
        cases r3 <;> simp [hih, hb]

/-- Claim C5: if any non-blank line of the shard file fails to decode, the
whole query fails with an error whose message names the dependency being
resolved, returning no summary list; and a file whose every line is blank
or whitespace-only is not an error — those lines are skipped. -/
theorem c5_malformed_line_aborts (ext : Externals) (st : Hashes) (fs : FS)
    (checkoutPath : FsPath) (dep : Dependency) (contents : String)
    (hfile : fsFind fs (queryPath checkoutPath dep.name) = some contents) :
    ((∃ l ∈ filteredLines contents, ∃ e, ext.jsonDecodePkg l = .error e) →
      ∃ st' e', query ext st fs checkoutPath dep = (st', .error e') ∧
        e'.msg = "Failed to parse registry's information for: " ++ dep.name) ∧
    ((∀ l ∈ linesOf contents, trimStr l = "") →
      query ext st fs checkoutPath dep = (st, .ok [])) := by
  constructor
  · intro hex
    obtain ⟨st', e', hpa⟩ :=
      parseAll_error_of_mem ext (filteredLines contents) st hex
    exact ⟨st',
      ⟨"Failed to parse registry's information for: " ++ dep.name, e'⟩,
      by simp [query, hfile, hpa], rfl⟩
  · intro hws
    have hfl : filteredLines contents = [] := by
      refine List.filter_eq_nil_iff.mpr (fun l hl => ?_)
      simp [hws l hl]
    simp [query, hfile, hfl, parseAll, summariesQuery]

/-- Witness for C5: a shard file with one well-formed and one malformed
line fails, naming the queried dependency. -/
theorem c5_witness :
    ∃ st' e',
      query testExt []
          [(queryPath ["reg"] "ab", "ab 1.0.0 cc\nbadline\n")] ["reg"]
          ⟨"ab", "^1", false, true, []⟩ =
        (st', .error e') ∧
      e'.msg = "Failed to parse registry's information for: " ++ "ab" :=
  (c5_malformed_line_aborts testExt []
    [(queryPath ["reg"] "ab", "ab 1.0.0 cc\nbadline\n")] ["reg"]
    ⟨"ab", "^1", false, true, []⟩ "ab 1.0.0 cc\nbadline\n" (by decide)).1
    ⟨"badline", by decide, "invalid line: badline", rfl⟩

/-- Claim C9: a query that fails on a malformed line does not roll back the
checksum cache — the entry inserted by an earlier well-formed line is still
found after the failed query (provided no other line between it and the
failure shadows its `(name, version)` key). -/
theorem c9_cache_not_rolled_back (ext : Externals) (st stp stmid : Hashes)
    (fs : FS) (checkoutPath : FsPath) (dep : Dependency) (contents : String)
    (pre1 pre2 post : List String) (lgood lbad : String)
    (rp : RegistryPackage) (ss1 : List Summary) (s : Summary)
    (hfile : fsFind fs (queryPath checkoutPath dep.name) = some contents)
    (hsplit : filteredLines contents = pre1 ++ lgood :: (pre2 ++ lbad :: post))
    (hpre1 : parseAll ext st pre1 = (stp, .ok ss1))
    (hdecode : ext.jsonDecodePkg lgood = .ok rp)
    (hgood : parse_registry_package ext stp lgood = (stmid, .ok s))
    (hfresh : ∀ l' ∈ pre2, ∀ rp', ext.jsonDecodePkg l' = .ok rp' →
      (rp'.name, rp'.vers) ≠ (rp.name, rp.vers))
    (hbad : ∃ e, ext.jsonDecodePkg lbad = .error e) :
    ∃ st' e', query ext st fs checkoutPath dep = (st', .error e') ∧
      findHash st' (rp.name, rp.vers) = some rp.cksum := by
  have hmid : stmid = insertHash stp (rp.name, rp.vers) rp.cksum :=
    parse_ok_inserts ext stp lgood rp stmid s hdecode hgood
  obtain ⟨st', e', heq, hpr⟩ :=
    parseAll_error_preserves ext pre2 post lbad stmid (rp.name, rp.vers)
      hbad hfresh
  have hfind : findHash st' (rp.name, rp.vers) = some rp.cksum := by
    rw [hpr, hmid, findHash_insertHash_self]
  have hbs : parseAll ext stp (lgood :: (pre2 ++ lbad :: post)) =
      (st', .error e') := by
    simp [parseAll, hgood, heq]
  have hrun : parseAll ext st (filteredLines contents) = (st', .error e') := by
    rw [hsplit,
      parseAll_append_ok ext pre1 (lgood :: (pre2 ++ lbad :: post)) st stp
        ss1 hpre1, hbs]
  exact ⟨st',
    ⟨"Failed to parse registry's information for: " ++ dep.name, e'⟩,
    by simp [query, hfile, hrun], hfind⟩

/-- Witness for C9: after a failed query on a two-line shard file whose
second line is malformed, the first line's checksum entry is in the
cache. -/
theorem c9_witness :
    ∃ st' e',
      query testExt []
          [(queryPath ["reg"] "a", "a 1.0.0 ab\nbad\n")] ["reg"]
          ⟨"a", "^1", false, true, []⟩ =
        (st', .error e') ∧
      findHash st' ("a", "1.0.0") = some "ab" :=
  c9_cache_not_rolled_back testExt [] []
    (insertHash [] ("a", "1.0.0") "ab")
    [(queryPath ["reg"] "a", "a 1.0.0 ab\nbad\n")] ["reg"]
    ⟨"a", "^1", false, true, []⟩ "a 1.0.0 ab\nbad\n"
    [] [] [] "a 1.0.0 ab" "bad" ⟨"a", "1.0.0", [], [], "ab"⟩ []
    ⟨⟨"a", "1.0.0"⟩, [], []⟩ (by decide) (by decide) rfl rfl rfl
    (fun l' hl' => absurd hl' (List.not_mem_nil l'))
    ⟨"invalid line: bad", rfl⟩

end Registry
